import Mathlib

/-!
Verification development for the python-tx-tftp repository (a Twisted-based
TFTP implementation).  The repository's `src` tree ships only `setup.py` and
the backend test suite `tftp/test/test_backend.py`; the implementation
modules (`tftp/backend.py`, `tftp/errors.py`, the datagram codec and the
session machinery) are not present, so they are modelled here from the
specification (`spec.md`), faithful to its words and to the behaviour the
in-tree tests assert.

Bytes are modelled as natural numbers (values below 256 on well-formed
data); byte strings are lists of naturals.
-/

namespace Tftp

/-! ### Packet codec (spec section 4.1) -/

/-- Modelled from the spec: section 4.1, option names "normalized to
lowercase ASCII".  Maps an ASCII uppercase byte to its lowercase form. -/
def lowerByte (b : Nat) : Nat :=
  if 65 ≤ b ∧ b ≤ 90 then b + 32 else b

/-- Lowercase an entire byte string. -/
def lowerStr (s : List Nat) : List Nat :=
  s.map lowerByte

/-- Modelled from the spec: section 3, "Packet — a tagged variant over
opcodes \x7bRRQ, WRQ, DATA, ACK, ERROR, OACK\x7d" (the datagram module is not
in `src/`).  Strings are byte lists; options are name/value pairs. -/
inductive Packet where
  | rrq (filename : List Nat) (mode : List Nat) (opts : List (List Nat × List Nat))
  | wrq (filename : List Nat) (mode : List Nat) (opts : List (List Nat × List Nat))
  | data (block : Nat) (payload : List Nat)
  | ack (block : Nat)
  | error (code : Nat) (msg : List Nat)
  | oack (opts : List (List Nat × List Nat))
  deriving DecidableEq

/-- Wire form of an option list: each name and value NUL-terminated
(spec section 4.1: `(optname, 0x00, optval, 0x00)*`). -/
def encOpts (opts : List (List Nat × List Nat)) : List Nat :=
  (opts.map (fun p => p.1 ++ 0 :: p.2 ++ [0])).flatten

/-- Modelled from the spec: section 4.1 wire layout, big-endian opcode and
16-bit fields, NUL-terminated strings. -/
def encode : Packet → List Nat
  | .rrq f m opts => 0 :: 1 :: (f ++ 0 :: m ++ 0 :: encOpts opts)
  | .wrq f m opts => 0 :: 2 :: (f ++ 0 :: m ++ 0 :: encOpts opts)
  | .data b p => 0 :: 3 :: b / 256 :: b % 256 :: p
  | .ack b => [0, 4, b / 256, b % 256]
  | .error c msg => 0 :: 5 :: c / 256 :: c % 256 :: (msg ++ [0])
  | .oack opts => 0 :: 6 :: encOpts opts

/-- Consume one NUL-terminated string from the front of a buffer; `none`
when the terminator is missing (spec: "missing or unterminated strings"). -/
def takeString : List Nat → Option (List Nat × List Nat)
  | [] => none
  | b :: rest =>
    if b = 0 then some ([], rest)
    else (takeString rest).map (fun p => (b :: p.1, p.2))

/-- Parse a run of NUL-terminated name/value option pairs, lowercasing the
names (spec section 4.1: "Option names are normalized to lowercase ASCII").
`fuel` bounds the recursion; callers pass the buffer length. -/
def parseOpts : Nat → List Nat → Option (List (List Nat × List Nat))
  | 0, l => if l = [] then some [] else none
  | fuel + 1, l =>
    if l = [] then some [] else
    (takeString l).bind fun np =>
    (takeString np.2).bind fun vp =>
    (parseOpts fuel vp.2).map (fun rest => (lowerStr np.1, vp.1) :: rest)

/-- ASCII bytes of `netascii`. -/
def netasciiB : List Nat := [110, 101, 116, 97, 115, 99, 105, 105]

/-- ASCII bytes of `octet`. -/
def octetB : List Nat := [111, 99, 116, 101, 116]

/-- ASCII bytes of `mail`. -/
def mailB : List Nat := [109, 97, 105, 108]

/-- Modelled from the spec: section 3, mode "in \x7bnetascii, octet, mail\x7d
(case-insensitive compare)". -/
def validMode (m : List Nat) : Bool :=
  lowerStr m = netasciiB || lowerStr m = octetB || lowerStr m = mailB

/-- Decode the body of an RRQ/WRQ: filename, mode, options.  Fails on a
missing terminator, an empty filename or an invalid mode token. -/
def decodeReq (body : List Nat) :
    Option (List Nat × List Nat × List (List Nat × List Nat)) :=
  (takeString body).bind fun fp =>
  if fp.1 = [] then none else
  (takeString fp.2).bind fun mp =>
  if validMode mp.1 then
    (parseOpts mp.2.length mp.2).map (fun opts => (fp.1, mp.1, opts))
  else none

/-- Modelled from the spec: section 4.1 `decode(bytes) -> packet`, failing
(`none`) on invalid opcode, truncation or malformed strings. -/
def decode : List Nat → Option Packet
  | 0 :: 1 :: body => (decodeReq body).map fun t => .rrq t.1 t.2.1 t.2.2
  | 0 :: 2 :: body => (decodeReq body).map fun t => .wrq t.1 t.2.1 t.2.2
  | 0 :: 3 :: b1 :: b2 :: payload => some (.data (b1 * 256 + b2) payload)
  | [0, 4, b1, b2] => some (.ack (b1 * 256 + b2))
  | 0 :: 5 :: b1 :: b2 :: rest =>
    (takeString rest).bind fun mp =>
    if mp.2 = [] then some (.error (b1 * 256 + b2) mp.1) else none
  | 0 :: 6 :: body => (parseOpts body.length body).map .oack
  | _ => none

/-- A wire-representable string: no NUL byte, all bytes in range. -/
def validStr (s : List Nat) : Prop :=
  0 ∉ s ∧ ∀ b ∈ s, b < 256

/-- Well-formed option list with names already lowercase
(spec section 8: round trip holds "with option names normalized to
lowercase"). -/
def validOpts (opts : List (List Nat × List Nat)) : Prop :=
  ∀ p ∈ opts, validStr p.1 ∧ validStr p.2 ∧ lowerStr p.1 = p.1

/-- The data-model invariants of spec section 3 for each packet variant:
non-empty filename, valid mode token, 16-bit block numbers and error
codes, wire-representable strings. -/
def WF : Packet → Prop
  | .rrq f m opts =>
      f ≠ [] ∧ validStr f ∧ validStr m ∧ validMode m = true ∧ validOpts opts
  | .wrq f m opts =>
      f ≠ [] ∧ validStr f ∧ validStr m ∧ validMode m = true ∧ validOpts opts
  | .data b p => b < 65536 ∧ ∀ x ∈ p, x < 256
  | .ack b => b < 65536
  | .error c msg => c < 65536 ∧ validStr msg
  | .oack opts => validOpts opts

instance : DecidablePred validStr := fun _ =>
  inferInstanceAs (Decidable (_ ∧ _))

instance : DecidablePred validOpts := fun _ =>
  inferInstanceAs (Decidable (∀ _ ∈ _, _))

instance : DecidablePred WF := fun p => by
  cases p <;> simp only [WF] <;> infer_instance

theorem takeString_append (s r : List Nat) (hs : 0 ∉ s) :
    takeString (s ++ 0 :: r) = some (s, r) := by
  induction s with
  | nil => simp [takeString]
  | cons b s ih =>
    have hb : b ≠ 0 := by
      intro h; exact hs (by simp [h])
    have hs' : 0 ∉ s := fun h => hs (by simp [h])
    simp [takeString, hb, ih hs']

theorem parseOpts_encOpts (opts : List (List Nat × List Nat))
    (h : validOpts opts) :
    ∀ fuel, (encOpts opts).length ≤ fuel →
      parseOpts fuel (encOpts opts) = some opts := by
  induction opts with
  | nil =>
    intro fuel _
    cases fuel <;> simp [parseOpts, encOpts]
  | cons p rest ih =>
    intro fuel hfuel
    obtain ⟨hn, hv, hlow⟩ := h p (by simp)
    have hrest : validOpts rest := fun q hq => h q (by simp [hq])
    have henc : encOpts (p :: rest) = p.1 ++ 0 :: (p.2 ++ 0 :: encOpts rest) := by
      simp [encOpts]
    have hlen : (encOpts (p :: rest)).length =
        p.1.length + p.2.length + (encOpts rest).length + 2 := by
      simp [henc]; omega
    cases fuel with
    | zero => omega
    | succ fuel =>
      have hne : encOpts (p :: rest) ≠ [] := by
        rw [henc]; simp
      rw [parseOpts, if_neg hne, henc,
        takeString_append p.1 (p.2 ++ 0 :: encOpts rest) hn.1,
        Option.some_bind, takeString_append p.2 (encOpts rest) hv.1,
        Option.some_bind, ih hrest fuel (by omega)]
      simp [hlow]

theorem decodeReq_roundtrip (f m : List Nat) (opts : List (List Nat × List Nat))
    (hf : f ≠ []) (hfs : validStr f) (hms : validStr m)
    (hmode : validMode m = true) (hopts : validOpts opts) :
    decodeReq (f ++ 0 :: (m ++ 0 :: encOpts opts)) = some (f, m, opts) := by
  rw [decodeReq, takeString_append f (m ++ 0 :: encOpts opts) hfs.1,
    Option.some_bind, if_neg hf, takeString_append m (encOpts opts) hms.1,
    Option.some_bind, if_pos hmode,
    parseOpts_encOpts opts hopts (encOpts opts).length le_rfl]
  rfl

/-- C3: for every well-formed packet of the six opcodes (RRQ, WRQ, DATA,
ACK, ERROR, OACK) whose option names are already lowercase, decoding the
encoding yields the packet back: `decode (encode p) = some p`. -/
theorem C3_decode_encode_roundtrip (p : Packet) (h : WF p) :
    decode (encode p) = some p := by
  cases p with
  | rrq f m opts =>
    obtain ⟨hf, hfs, hms, hmode, hopts⟩ := h
    have hd : decode (encode (.rrq f m opts)) =
        (decodeReq (f ++ 0 :: (m ++ 0 :: encOpts opts))).map
          (fun t => Packet.rrq t.1 t.2.1 t.2.2) := by
      simp [encode, decode]
    rw [hd, decodeReq_roundtrip f m opts hf hfs hms hmode hopts]
    rfl
  | wrq f m opts =>
    obtain ⟨hf, hfs, hms, hmode, hopts⟩ := h
    have hd : decode (encode (.wrq f m opts)) =
        (decodeReq (f ++ 0 :: (m ++ 0 :: encOpts opts))).map
          (fun t => Packet.wrq t.1 t.2.1 t.2.2) := by
      simp [encode, decode]
    rw [hd, decodeReq_roundtrip f m opts hf hfs hms hmode hopts]
    rfl
  | data b payload =>
    have hb : b / 256 * 256 + b % 256 = b := by omega
    simp [encode, decode, hb]
  | ack b =>
    have hb : b / 256 * 256 + b % 256 = b := by omega
    simp [encode, decode, hb]
  | error c msg =>
    obtain ⟨hc, hms⟩ := h
    have hd : decode (encode (.error c msg)) =
        (takeString (msg ++ 0 :: [])).bind fun mp =>
          if mp.2 = [] then some (.error (c / 256 * 256 + c % 256) mp.1)
          else none := by
      simp [encode, decode]
    have hcode : c / 256 * 256 + c % 256 = c := by omega
    rw [hd, takeString_append msg [] hms.1, Option.some_bind, if_pos rfl, hcode]
  | oack opts =>
    have hd : decode (encode (.oack opts)) =
        (parseOpts (encOpts opts).length (encOpts opts)).map Packet.oack := by
      simp [encode, decode]
    rw [hd, parseOpts_encOpts opts h (encOpts opts).length le_rfl]
    rfl

theorem C3_witness :
    WF (Packet.rrq [97] octetB [([98, 108, 107, 115, 105, 122, 101], [53, 49, 50])]) ∧
    decode (encode (Packet.rrq [97] octetB
        [([98, 108, 107, 115, 105, 122, 101], [53, 49, 50])])) =
      some (Packet.rrq [97] octetB
        [([98, 108, 107, 115, 105, 122, 101], [53, 49, 50])]) :=
  ⟨by decide, C3_decode_encode_roundtrip _ (by decide)⟩

/-! ### Error model (spec sections 4.2 and 6) -/

/-- Modelled from the spec: section 6, the backend failure kinds
(`tftp/errors.py` is not in `src/`). -/
inductive TftpError where
  | FileNotFound
  | AccessViolation
  | FileExists
  | Unsupported
  deriving DecidableEq

/-- Modelled from the spec: sections 4.2 and 6, the wire ERROR code of each
backend failure kind (`Unsupported` maps to IllegalOperation, code 4). -/
def errorCode : TftpError → Nat
  | .FileNotFound => 1
  | .AccessViolation => 2
  | .FileExists => 6
  | .Unsupported => 4

/-- Modelled from the spec: section 4.2, "Local (non-wire) errors". -/
inductive LocalError where
  | BackendUnavailable
  | Timeout
  | TooManyRetries
  | Cancelled
  | IOFailure
  deriving DecidableEq

/-! ### Filesystem reader (spec section 4.3; behaviour pinned by
`tftp/test/test_backend.py`, classes `Reader` and `BackendSelection`) -/

/-- Lifecycle tag of a `FilesystemReader`: reading, exhausted (end of file
seen), or explicitly finished. -/
inductive ReaderState where
  | active
  | eof
  | finished
  deriving DecidableEq

/-- Modelled from the spec: section 4.3 Reader contract
(`tftp/backend.py` is not in `src/`).  `contents` stands for the opened
file's bytes, `pos` for the file offset, `fileClosed` for the state of the
underlying file object observed by the tests. -/
structure FilesystemReader where
  contents : List Nat
  pos : Nat
  state : ReaderState
  fileClosed : Bool
  deriving DecidableEq

/-- A freshly constructed reader on an existing file. -/
def mkReader (contents : List Nat) : FilesystemReader :=
  ⟨contents, 0, .active, false⟩

/-- Modelled from the spec: `read(n) -> bytes` "returns up to n bytes.
Returning fewer than n (including zero) signals end-of-file; subsequent
calls must return empty."  An empty result moves the reader to `eof` and
closes the file, as `Reader.test_read_existing_file` observes. -/
def FilesystemReader.read (r : FilesystemReader) (n : Nat) :
    List Nat × FilesystemReader :=
  match r.state with
  | .eof => ([], r)
  | .finished => ([], r)
  | .active =>
    let chunk := (r.contents.drop r.pos).take n
    if chunk = [] then ([], { r with state := .eof, fileClosed := true })
    else (chunk, { r with pos := r.pos + chunk.length })

/-- Modelled from the spec: `finish()` — "idempotent release of resources
on normal completion".  Closes the file unless already closed at `eof`. -/
def FilesystemReader.finish (r : FilesystemReader) : FilesystemReader :=
  match r.state with
  | .eof => { r with state := .finished }
  | .finished => { r with state := .finished }
  | .active => { r with state := .finished, fileClosed := true }

/-- Modelled from the spec: `size -> optional integer`, "best-effort total
length"; `Reader.test_size_when_reader_finished` pins it to `None` once the
file object is closed. -/
def FilesystemReader.size (r : FilesystemReader) : Option Nat :=
  if r.fileClosed then none else some r.contents.length

/-- Modelled from the spec: Reader `cancel()` "defaults to finish". -/
def FilesystemReader.cancel (r : FilesystemReader) : FilesystemReader :=
  r.finish

/-- Run a sequence of `read` calls, collecting the returned chunks. -/
def readSeq (r : FilesystemReader) : List Nat → List (List Nat)
  | [] => []
  | n :: ns => (r.read n).1 :: readSeq (r.read n).2 ns

/-! ### Filesystem model and writer -/

/-- A flat model of the backend's directory tree: an association from
path segments to file contents. -/
abbrev Filesystem : Type := List (List (List Nat) × List Nat)

/-- Whether a file exists at the given path. -/
def hasFile (fs : Filesystem) (p : List (List Nat)) : Bool :=
  fs.any (fun q => q.1 == p)

/-- Contents of the file at the given path, when present. -/
def lookupFile (fs : Filesystem) (p : List (List Nat)) : Option (List Nat) :=
  (fs.find? (fun q => q.1 == p)).map (fun q => q.2)

/-- Create or overwrite the file at a path. -/
def setFile (fs : Filesystem) (p : List (List Nat)) (c : List Nat) : Filesystem :=
  (p, c) :: fs.filter (fun q => !(q.1 == p))

/-- Remove the file at a path. -/
def removeFile (fs : Filesystem) (p : List (List Nat)) : Filesystem :=
  fs.filter (fun q => !(q.1 == p))

/-- Lifecycle tag of a `FilesystemWriter`. -/
inductive WriterState where
  | active
  | finished
  | cancelled
  deriving DecidableEq

/-- Modelled from the spec: section 4.3 Writer contract
(`tftp/backend.py` is not in `src/`).  Output is buffered in `temp` (the
temporary file of the filesystem writer) and only committed on `finish`;
`Writer.test_cancelled_write` pins `cancel` to leaving no file behind. -/
structure FilesystemWriter where
  path : List (List Nat)
  temp : List Nat
  state : WriterState
  deriving DecidableEq

/-- Construct a writer, failing with `FileExists` when the target is
already present (`Writer.test_write_existing_file`); the destination file
is created empty at once. -/
def mkWriter (fs : Filesystem) (p : List (List Nat)) :
    Except TftpError (FilesystemWriter × Filesystem) :=
  if hasFile fs p then .error .FileExists
  else .ok (⟨p, [], .active⟩, setFile fs p [])

/-- Modelled from the spec: `write(bytes)`: append (to the temporary
buffer while the writer is active). -/
def FilesystemWriter.write (w : FilesystemWriter) (data : List Nat) :
    FilesystemWriter :=
  { w with temp := w.temp ++ data }

/-- Modelled from the spec: `finish()`: "commit and release. Idempotent."
Commits the buffered bytes to the destination path. -/
def FilesystemWriter.finish (w : FilesystemWriter) (fs : Filesystem) :
    FilesystemWriter × Filesystem :=
  match w.state with
  | .finished => (w, fs)
  | .cancelled => (w, fs)
  | .active => ({ w with state := .finished }, setFile fs w.path w.temp)

/-- Modelled from the spec: `cancel()`: "discard any buffered or partially
written output and release. Idempotent."  Removes the destination file. -/
def FilesystemWriter.cancel (w : FilesystemWriter) (fs : Filesystem) :
    FilesystemWriter × Filesystem :=
  match w.state with
  | .finished => (w, fs)
  | .cancelled => (w, fs)
  | .active => ({ w with state := .cancelled }, removeFile fs w.path)

/-- Apply a sequence of `write` calls. -/
def writeAll (w : FilesystemWriter) (ds : List (List Nat)) : FilesystemWriter :=
  ds.foldl FilesystemWriter.write w

/-! ### Backend (spec section 6; `FilesystemSynchronousBackend`) -/

/-- Split a byte-string filename on `/` (byte 47). -/
def splitSlash : List Nat → List (List Nat)
  | [] => [[]]
  | b :: rest =>
    if b = 47 then [] :: splitSlash rest
    else
      match splitSlash rest with
      | [] => [[b]]
      | s :: ss => (b :: s) :: ss

/-- Path segments of a filename relative to the backend base directory;
empty segments (leading, trailing or doubled slashes) are dropped, as
`BackendSelection.test_read_ignores_leading_and_trailing_slashes`
observes. -/
def segmentsOf (filename : List Nat) : List (List Nat) :=
  (splitSlash filename).filter (fun s => !(s == []))

/-- Modelled from the spec: section 6, "canonicalization and sandboxing are
the backend's responsibility"; a path escaping the base directory (a `..`
segment, bytes 46 46) is insecure, as
`BackendSelection.test_insecure_reader` observes. -/
def insecurePath (filename : List Nat) : Bool :=
  (segmentsOf filename).any (fun s => s == [46, 46])

/-- Modelled from the spec: section 6 backend configuration, with the
`can_read` / `can_write` capability flags (`tftp/backend.py` is not in
`src/`). -/
structure FilesystemSynchronousBackend where
  fs : Filesystem
  can_read : Bool
  can_write : Bool

/-- Modelled from the spec: `get_reader(filename) -> Reader`, failing with
`Unsupported` when reading is disabled
(`BackendSelection.test_read_unsupported`), `AccessViolation` on an
insecure path, and `FileNotFound` when the target is absent
(`Reader.test_file_not_found`). -/
def get_reader (b : FilesystemSynchronousBackend) (filename : List Nat) :
    Except TftpError FilesystemReader :=
  if !b.can_read then .error .Unsupported
  else if insecurePath filename then .error .AccessViolation
  else
    match lookupFile b.fs (segmentsOf filename) with
    | some c => .ok (mkReader c)
    | none => .error .FileNotFound

/-- Modelled from the spec: `get_writer(filename) -> Writer`, failing with
`Unsupported` when writing is disabled, `AccessViolation` on an insecure
path, and `FileExists` when the target is present. -/
def get_writer (b : FilesystemSynchronousBackend) (filename : List Nat) :
    Except TftpError (FilesystemWriter × Filesystem) :=
  if !b.can_write then .error .Unsupported
  else if insecurePath filename then .error .AccessViolation
  else mkWriter b.fs (segmentsOf filename)

/-! ### Reader behaviour -/

/-- A reader that has hit end-of-file (or was released): no byte remains. -/
def exhaustedR (r : FilesystemReader) : Prop :=
  r.state ≠ .active ∨ r.contents.length ≤ r.pos

theorem read_length_le (r : FilesystemReader) (n : Nat) :
    (r.read n).1.length ≤ n := by
  obtain ⟨c, p, st, fc⟩ := r
  cases st with
  | eof => simp [FilesystemReader.read]
  | finished => simp [FilesystemReader.read]
  | active =>
    by_cases hc : (c.drop p).take n = []
    · simp [FilesystemReader.read, hc]
    · simp only [FilesystemReader.read, if_neg hc]
      simp

theorem read_exhausted (r : FilesystemReader) (n : Nat) (h : exhaustedR r) :
    (r.read n).1 = [] ∧ exhaustedR (r.read n).2 := by
  obtain ⟨c, p, st, fc⟩ := r
  cases st with
  | eof => exact ⟨rfl, h⟩
  | finished => exact ⟨rfl, h⟩
  | active =>
    have hle : c.length ≤ p := by
      rcases h with h | h
      · exact absurd rfl h
      · exact h
    have hdrop : c.drop p = [] := List.drop_eq_nil_of_le hle
    simp [FilesystemReader.read, hdrop, exhaustedR]

theorem read_short_exhausted (r : FilesystemReader) (n : Nat)
    (h : (r.read n).1.length < n) : exhaustedR (r.read n).2 := by
  obtain ⟨c, p, st, fc⟩ := r
  cases st with
  | eof => exact Or.inl (by simp [FilesystemReader.read])
  | finished => exact Or.inl (by simp [FilesystemReader.read])
  | active =>
    by_cases hc : (c.drop p).take n = []
    · simp [FilesystemReader.read, hc, exhaustedR]
    · have h' := h
      simp only [FilesystemReader.read, if_neg hc] at h'
      simp only [List.length_take, List.length_drop] at h'
      simp only [FilesystemReader.read, if_neg hc, exhaustedR]
      right
      simp only [List.length_take, List.length_drop]
      omega

theorem readSeq_exhausted (r : FilesystemReader) (h : exhaustedR r) :
    ∀ ns : List Nat, readSeq r ns = ns.map fun _ => [] := by
  intro ns
  induction ns generalizing r with
  | nil => rfl
  | cons n ns ih =>
    obtain ⟨h1, h2⟩ := read_exhausted r n h
    simp [readSeq, h1, ih _ h2]

/-- C1: every `read n` call with `n > 0` returns at most `n` bytes, and once
a call has returned fewer than `n` bytes (including zero), every subsequent
sequence of read calls returns only empty byte strings. -/
theorem C1_read_contract (r : FilesystemReader) (n : Nat) (ns : List Nat)
    (hn : 0 < n) :
    (r.read n).1.length ≤ n ∧
    ((r.read n).1.length < n →
      readSeq (r.read n).2 ns = ns.map fun _ => []) := by
  refine ⟨read_length_le r n, fun hshort => ?_⟩
  exact readSeq_exhausted (r.read n).2 (read_short_exhausted r n hshort) ns

theorem C1_witness :
    0 < 3 ∧
    ((mkReader [1, 2, 3, 4]).read 3).1.length ≤ 3 ∧
    ((((mkReader [1, 2, 3, 4]).read 3).1.length < 3 →
      readSeq ((mkReader [1, 2, 3, 4]).read 3).2 [3, 7] =
        [3, 7].map fun _ => [])) :=
  ⟨by decide, C1_read_contract (mkReader [1, 2, 3, 4]) 3 [3, 7] (by decide)⟩

/-- C10: once a read has come back short, the next read returns empty and
leaves the underlying file object closed, with no `finish` call involved;
and after `finish()` the `size` attribute is `none`.  The closed-file
invariant (a non-active reader has its file closed) is a hypothesis. -/
theorem C10_autoclose_and_size (r : FilesystemReader) (n : Nat) (hn : 0 < n)
    (hinv : r.state = .active ∨ r.fileClosed = true) :
    ((r.read n).1.length < n →
      ((r.read n).2.read n).1 = [] ∧
      ((r.read n).2.read n).2.fileClosed = true) ∧
    (r.finish).size = none := by
  obtain ⟨c, p, st, fc⟩ := r
  cases st with
  | eof =>
    have hfc : fc = true := by
      rcases hinv with h | h
      · exact absurd h (by simp)
      · exact h
    subst hfc
    exact ⟨fun _ => ⟨rfl, rfl⟩, by simp [FilesystemReader.finish, FilesystemReader.size]⟩
  | finished =>
    have hfc : fc = true := by
      rcases hinv with h | h
      · exact absurd h (by simp)
      · exact h
    subst hfc
    exact ⟨fun _ => ⟨rfl, rfl⟩, by simp [FilesystemReader.finish, FilesystemReader.size]⟩
  | active =>
    refine ⟨fun hshort => ?_, by simp [FilesystemReader.finish, FilesystemReader.size]⟩
    by_cases hc : (c.drop p).take n = []
    · simp [FilesystemReader.read, hc]
    · have h' := hshort
      simp only [FilesystemReader.read, if_neg hc] at h'
      simp only [List.length_take, List.length_drop] at h'
      have hcond : n = 0 ∨ c.length ≤ p + n ⊓ (c.length - p) :=
        Or.inr (by omega)
      simp [FilesystemReader.read, hc, hcond]

theorem C10_witness :
    (0 < 5 ∧ (mkReader [1, 2]).state = ReaderState.active) ∧
    ((((mkReader [1, 2]).read 5).1.length < 5 →
      (((mkReader [1, 2]).read 5).2.read 5).1 = [] ∧
      (((mkReader [1, 2]).read 5).2.read 5).2.fileClosed = true) ∧
    ((mkReader [1, 2]).finish).size = none) :=
  ⟨⟨by decide, rfl⟩,
    C10_autoclose_and_size (mkReader [1, 2]) 5 (by decide) (Or.inl rfl)⟩

/-! ### Writer behaviour -/

theorem writeAll_path (w : FilesystemWriter) (ds : List (List Nat)) :
    (writeAll w ds).path = w.path ∧ (writeAll w ds).state = w.state := by
  induction ds generalizing w with
  | nil => exact ⟨rfl, rfl⟩
  | cons d ds ih =>
    have h := ih (FilesystemWriter.write w d)
    simpa [writeAll, FilesystemWriter.write] using h

theorem cancel_active (w : FilesystemWriter) (fs : Filesystem)
    (h : w.state = .active) :
    w.cancel fs = ({ w with state := .cancelled }, removeFile fs w.path) := by
  obtain ⟨p, t, st⟩ := w
  simp only at h
  subst h
  rfl

theorem hasFile_removeFile (fs : Filesystem) (p : List (List Nat)) :
    hasFile (removeFile fs p) p = false := by
  induction fs with
  | nil => rfl
  | cons q fs ih =>
    by_cases hq : q.1 == p
    · simpa [removeFile, List.filter, hq] using ih
    · simp only [removeFile, List.filter, hq] at ih ⊢
      simp only [Bool.not_false, hasFile, List.any_cons, hq] at ih ⊢
      simp only [Bool.false_or]
      exact ih

/-- C4: `finish()` is idempotent for both the reader and the writer: a
second `finish` leaves the object's state and the produced file contents
exactly as after the first, and is total (raises no error). -/
theorem C4_finish_idempotent :
    (∀ r : FilesystemReader, r.finish.finish = r.finish) ∧
    (∀ (w : FilesystemWriter) (fs : Filesystem),
      (w.finish fs).1.finish (w.finish fs).2 = w.finish fs) := by
  constructor
  · intro r
    obtain ⟨c, p, st, fc⟩ := r
    cases st <;> rfl
  · intro w fs
    obtain ⟨p, t, st⟩ := w
    cases st <;> rfl

/-- C5: whatever was written, after `cancel()` the target file does not
exist: cancellation discards all buffered or partially written output. -/
theorem C5_cancel_discards (fs : Filesystem) (p : List (List Nat))
    (ds : List (List Nat)) (w0 : FilesystemWriter) (fs0 : Filesystem)
    (h : mkWriter fs p = .ok (w0, fs0)) :
    hasFile ((writeAll w0 ds).cancel fs0).2 p = false := by
  by_cases hf : hasFile fs p
  · simp [mkWriter, hf] at h
  · simp only [mkWriter, hf, Bool.false_eq_true, if_false, Except.ok.injEq,
      Prod.mk.injEq] at h
    obtain ⟨hw, hfs⟩ := h
    subst hfs
    subst hw
    obtain ⟨hpath, hstate⟩ := writeAll_path ⟨p, [], .active⟩ ds
    rw [cancel_active _ _ hstate, hpath]
    exact hasFile_removeFile _ p

theorem C5_witness :
    mkWriter [] [[98]] = Except.ok
      (⟨[[98]], [], WriterState.active⟩, [([[98]], [])]) ∧
    hasFile ((writeAll ⟨[[98]], [], WriterState.active⟩
        [[1, 2, 3]]).cancel [([[98]], [])]).2 [[98]] = false :=
  ⟨rfl,
    C5_cancel_discards [] [[98]] [[1, 2, 3]] ⟨[[98]], [], .active⟩
      [([[98]], [])] rfl⟩

/-! ### Backend path handling and error mapping -/

theorem splitSlash_ne_nil (l : List Nat) : splitSlash l ≠ [] := by
  cases l with
  | nil => simp [splitSlash]
  | cons b rest =>
    by_cases hb : b = 47
    · simp [splitSlash, hb]
    · rcases hh : splitSlash rest with _ | ⟨s, ss⟩ <;>
        simp [splitSlash, hb, hh]

theorem splitSlash_append_slash (l : List Nat) :
    splitSlash (l ++ [47]) = splitSlash l ++ [[]] := by
  induction l with
  | nil => rfl
  | cons b rest ih =>
    by_cases hb : b = 47
    · subst hb
      simp [splitSlash, ih]
    · have hne := splitSlash_ne_nil rest
      rcases hh : splitSlash rest with _ | ⟨s, ss⟩
      · exact absurd hh hne
      · simp only [splitSlash, if_neg hb, hh, List.append_eq]
        rw [ih, hh]
        simp [List.cons_append]

theorem segmentsOf_slashes (f : List Nat) :
    segmentsOf (47 :: (f ++ [47])) = segmentsOf f := by
  simp [segmentsOf, splitSlash, splitSlash_append_slash, List.filter_append]

/-- C9: `get_reader` and `get_writer` ignore leading and trailing slashes:
the path resolved for `/a/b/` equals the one for `a/b`, and both names yield
the same reader/writer outcome (byte 47 is the slash). -/
theorem C9_slashes_ignored (b : FilesystemSynchronousBackend) (f : List Nat) :
    segmentsOf (47 :: (f ++ [47])) = segmentsOf f ∧
    get_reader b (47 :: (f ++ [47])) = get_reader b f ∧
    get_writer b (47 :: (f ++ [47])) = get_writer b f := by
  have hseg := segmentsOf_slashes f
  refine ⟨hseg, ?_, ?_⟩ <;> simp [get_reader, get_writer, insecurePath, hseg]

/-- C8: for a filename whose resolved path escapes the base directory (it
contains a `..` segment), `get_reader` and `get_writer` (with the
corresponding capability enabled) fail with `AccessViolation`; no reader or
writer is created. -/
theorem C8_insecure_path (b : FilesystemSynchronousBackend) (f : List Nat)
    (hins : insecurePath f = true) :
    (b.can_read = true → get_reader b f = .error .AccessViolation) ∧
    (b.can_write = true → get_writer b f = .error .AccessViolation) := by
  constructor
  · intro hr
    simp [get_reader, hr, hins]
  · intro hw
    simp [get_writer, hw, hins]

theorem C8_witness :
    insecurePath [46, 46, 47, 102, 111, 111] = true ∧
    get_reader ⟨[], true, true⟩ [46, 46, 47, 102, 111, 111] =
      Except.error TftpError.AccessViolation ∧
    get_writer ⟨[], true, true⟩ [46, 46, 47, 102, 111, 111] =
      Except.error TftpError.AccessViolation :=
  ⟨rfl,
    (C8_insecure_path ⟨[], true, true⟩ [46, 46, 47, 102, 111, 111] rfl).1 rfl,
    (C8_insecure_path ⟨[], true, true⟩ [46, 46, 47, 102, 111, 111] rfl).2 rfl⟩

/-- C2 is false as stated: with reading disabled (`can_read = false`) and an
absent target, `get_reader` fails with `Unsupported`, not `FileNotFound`,
so "fails with FileNotFound if and only if the target is absent" does not
hold at this input. -/
theorem C2_counterexample :
    ¬ ((get_reader ⟨[], false, true⟩ [102, 111, 111] =
          Except.error TftpError.FileNotFound) ↔
        lookupFile ([] : Filesystem) (segmentsOf [102, 111, 111]) = none) := by
  intro h
  have h2 := h.mpr rfl
  simp [get_reader] at h2

/-- C2 (amended): the `Unsupported` failures are characterized exactly by
the capability flags (they take precedence); given the capability enabled
and a secure path, `get_reader` fails `FileNotFound` iff the target is
absent and `get_writer` fails `FileExists` iff the target is present; the
error kinds map to wire codes 1, 6 and 4. -/
theorem C2_amended_error_mapping (b : FilesystemSynchronousBackend)
    (f : List Nat) :
    (get_reader b f = .error .Unsupported ↔ b.can_read = false) ∧
    (get_writer b f = .error .Unsupported ↔ b.can_write = false) ∧
    (b.can_read = true → insecurePath f = false →
      (get_reader b f = .error .FileNotFound ↔
        lookupFile b.fs (segmentsOf f) = none)) ∧
    (b.can_write = true → insecurePath f = false →
      (get_writer b f = .error .FileExists ↔
        hasFile b.fs (segmentsOf f) = true)) ∧
    errorCode .FileNotFound = 1 ∧ errorCode .FileExists = 6 ∧
    errorCode .Unsupported = 4 := by
  obtain ⟨fs, cr, cw⟩ := b
  refine ⟨?_, ?_, ?_, ?_, rfl, rfl, rfl⟩
  · cases cr
    · simp [get_reader]
    · simp only [get_reader]
      by_cases hi : insecurePath f
      · simp [hi]
      · rcases hl : lookupFile fs (segmentsOf f) with _ | c <;> simp [hi, hl]
  · cases cw
    · simp [get_writer]
    · simp only [get_writer, mkWriter]
      by_cases hi : insecurePath f
      · simp [hi]
      · by_cases hsf : hasFile fs (segmentsOf f) <;> simp [hi, hsf]
  · intro hr hi
    subst hr
    rcases hl : lookupFile fs (segmentsOf f) with _ | c <;>
      simp [get_reader, hi, hl]
  · intro hw hi
    subst hw
    by_cases hsf : hasFile fs (segmentsOf f) <;>
      simp [get_writer, mkWriter, hi, hsf]

theorem C2_amended_witness :
    insecurePath [102] = false ∧
    ((get_reader ⟨[], true, true⟩ [102] =
        Except.error TftpError.FileNotFound) ↔
      lookupFile ([] : Filesystem) (segmentsOf [102]) = none) :=
  ⟨rfl, (C2_amended_error_mapping ⟨[], true, true⟩ [102]).2.2.1 rfl rfl⟩

/-! ### Session state machines (spec section 4.5; the session modules are
not in `src/`) -/

/-- Session lifecycle tag (spec section 3: NEGOTIATING is entered only
with options, which these transitions do not involve). -/
inductive SessionState where
  | active
  | terminatedOk
  | terminatedError
  deriving DecidableEq

/-- Modelled from the spec: section 4.5 WriteSession.  `expected` is the
next expected block number (16-bit, wrapping), `written` the bytes the
Writer has received so far. -/
structure WriteSession where
  expected : Nat
  blksize : Nat
  written : List Nat
  sstate : SessionState
  deriving DecidableEq

/-- Modelled from the spec: section 4.5 WriteSession, on DATA(blk, payload):
on the expected block, write and ACK (terminating on a short payload); on
`expected - 1 (mod 2^16)` re-send the ACK without re-writing; otherwise
ERROR(IllegalOperation, wire code 4) and terminate. -/
def wsOnData (s : WriteSession) (blk : Nat) (payload : List Nat) :
    WriteSession × List Packet :=
  match s.sstate with
  | .terminatedOk => (s, [])
  | .terminatedError => (s, [])
  | .active =>
    if blk = s.expected then
      if payload.length < s.blksize then
        ({ s with written := s.written ++ payload, sstate := .terminatedOk },
          [.ack blk])
      else
        ({ s with
            written := s.written ++ payload
            expected := (s.expected + 1) % 65536 }, [.ack blk])
    else if blk = (s.expected + 65535) % 65536 then
      (s, [.ack blk])
    else
      ({ s with sstate := .terminatedError }, [.error 4 []])

/-- Modelled from the spec: section 4.5 ReadSession.  `block` is the block
number of the DATA in flight, `lastLen` its payload length. -/
structure ReadSession where
  reader : FilesystemReader
  block : Nat
  blksize : Nat
  lastLen : Nat
  sstate : SessionState
  deriving DecidableEq

/-- Modelled from the spec: section 4.5 ReadSession, on ACK(blk): the
current block's ACK advances the transfer (or terminates it after the
final short DATA); a duplicate ACK for the previous block is ignored;
any other block number is ERROR(IllegalOperation) and termination. -/
def rsOnAck (s : ReadSession) (blk : Nat) : ReadSession × List Packet :=
  match s.sstate with
  | .terminatedOk => (s, [])
  | .terminatedError => (s, [])
  | .active =>
    if blk = s.block then
      if s.lastLen < s.blksize then
        ({ s with reader := s.reader.finish, sstate := .terminatedOk }, [])
      else
        ({ s with
            reader := (s.reader.read s.blksize).2
            block := (s.block + 1) % 65536
            lastLen := (s.reader.read s.blksize).1.length },
          [.data ((s.block + 1) % 65536) (s.reader.read s.blksize).1])
    else if blk = (s.block + 65535) % 65536 then
      (s, [])
    else
      ({ s with reader := s.reader.cancel, sstate := .terminatedError },
        [.error 4 []])

theorem prev_block_ne (e : Nat) (he : e < 65536) :
    (e + 65535) % 65536 ≠ e := by
  omega

/-- C6: a WriteSession in the ACTIVE state that receives DATA for block
`expected - 1 (mod 2^16)` re-sends ACK(expected - 1) and does not hand the
payload to the Writer (no duplicated bytes); symmetrically, a ReadSession
that receives a duplicate ACK for the previous block is left unchanged, so
the Reader's position does not advance. -/
theorem C6_duplicate_absorption (s : WriteSession) (payload : List Nat)
    (t : ReadSession) (hs : s.sstate = .active) (hse : s.expected < 65536)
    (ht : t.sstate = .active) (htb : t.block < 65536) :
    wsOnData s ((s.expected + 65535) % 65536) payload =
      (s, [.ack ((s.expected + 65535) % 65536)]) ∧
    rsOnAck t ((t.block + 65535) % 65536) = (t, []) := by
  constructor
  · obtain ⟨e, bs, wr, st⟩ := s
    simp only at hs hse
    subst hs
    simp only [wsOnData, if_neg (prev_block_ne e hse), if_pos rfl]
    simp
  · obtain ⟨rd, bl, bs, ll, st⟩ := t
    simp only at ht htb
    subst ht
    simp only [rsOnAck, if_neg (prev_block_ne bl htb), if_pos rfl]
    simp

theorem C6_witness :
    ((⟨5, 512, [7, 7], SessionState.active⟩ : WriteSession).sstate =
        SessionState.active ∧
      (⟨5, 512, [7, 7], SessionState.active⟩ : WriteSession).expected < 65536) ∧
    wsOnData ⟨5, 512, [7, 7], SessionState.active⟩ ((5 + 65535) % 65536)
        [9, 9] =
      (⟨5, 512, [7, 7], SessionState.active⟩, [.ack ((5 + 65535) % 65536)]) ∧
    rsOnAck ⟨mkReader [1, 2, 3], 2, 512, 512, SessionState.active⟩
        ((2 + 65535) % 65536) =
      (⟨mkReader [1, 2, 3], 2, 512, 512, SessionState.active⟩, []) :=
  ⟨⟨rfl, by decide⟩,
    C6_duplicate_absorption ⟨5, 512, [7, 7], .active⟩ [9, 9]
      ⟨mkReader [1, 2, 3], 2, 512, 512, .active⟩ rfl (by decide) rfl
      (by decide)⟩

/-! ### Retransmit/timeout driver (spec section 4.6; not in `src/`) -/

/-- Modelled from the spec: section 4.6, the per-session retransmit state:
retry counter and maximum, the retained last-sent datagram, the timer, the
reader/writer release flag and the terminal failure, if any. -/
structure RetryState where
  retries : Nat
  max_retries : Nat
  lastSent : List Nat
  timerArmed : Bool
  rwCancelled : Bool
  failure : Option LocalError
  deriving DecidableEq

/-- Modelled from the spec: section 4.6, "On expiry: if retry count <
max_retries, resend the last-sent datagram verbatim, increment retry
count, rearm.  If retry count == max_retries, terminate with `Timeout` /
`TooManyRetries`; cancel reader/writer; no wire ERROR".  The second
component lists the datagrams sent. -/
def onTimerExpiry (s : RetryState) : RetryState × List (List Nat) :=
  if s.retries < s.max_retries then
    ({ s with retries := s.retries + 1, timerArmed := true }, [s.lastSent])
  else
    ({ s with
        failure := some .TooManyRetries
        timerArmed := false
        rwCancelled := true }, [])

/-- Iterate timer expiries (no inbound datagram arrives in between). -/
def expireN (s : RetryState) : Nat → RetryState
  | 0 => s
  | n + 1 => expireN (onTimerExpiry s).1 n

theorem expireN_terminates (k : Nat) :
    ∀ s : RetryState, s.retries + k = s.max_retries →
      (expireN s (k + 1)).failure = some .TooManyRetries ∧
      (expireN s (k + 1)).rwCancelled = true := by
  induction k with
  | zero =>
    intro s hs
    have hnl : ¬s.retries < s.max_retries := by omega
    simp [expireN, onTimerExpiry, hnl]
  | succ k ih =>
    intro s hs
    have hl : s.retries < s.max_retries := by omega
    have hstep : expireN s (k + 1 + 1) =
        expireN { s with retries := s.retries + 1, timerArmed := true }
          (k + 1) := by
      simp [expireN, onTimerExpiry, hl]
    rw [hstep]
    exact ih _ (by simp; omega)

/-- C7: on timer expiry with `retries < max_retries` the session resends
the last-sent datagram verbatim, increments the retry counter and rearms
the timer; with `retries == max_retries` it terminates with
`TooManyRetries`, cancels its reader/writer and sends nothing (no wire
ERROR); consequently a session that makes no progress from retry count 0
is terminated after `max_retries + 1` expiries. -/
theorem C7_retransmit_policy (s : RetryState) :
    (s.retries < s.max_retries →
      onTimerExpiry s =
        ({ s with retries := s.retries + 1, timerArmed := true },
          [s.lastSent])) ∧
    (s.retries = s.max_retries →
      (onTimerExpiry s).1.failure = some .TooManyRetries ∧
      (onTimerExpiry s).1.rwCancelled = true ∧
      (onTimerExpiry s).2 = []) ∧
    (s.retries = 0 →
      (expireN s (s.max_retries + 1)).failure = some .TooManyRetries ∧
      (expireN s (s.max_retries + 1)).rwCancelled = true) := by
  refine ⟨fun hl => ?_, fun he => ?_, fun h0 => ?_⟩
  · simp [onTimerExpiry, hl]
  · have hnl : ¬s.retries < s.max_retries := by omega
    simp [onTimerExpiry, hnl]
  · exact expireN_terminates s.max_retries s (by omega)

theorem C7_witness :
    ((0 : Nat) < 2 ∧
      onTimerExpiry ⟨0, 2, [1, 2, 3], true, false, none⟩ =
        (⟨1, 2, [1, 2, 3], true, false, none⟩, [[1, 2, 3]])) ∧
    ((expireN ⟨0, 2, [1, 2, 3], true, false, none⟩ 3).failure =
        some LocalError.TooManyRetries ∧
      (expireN ⟨0, 2, [1, 2, 3], true, false, none⟩ 3).rwCancelled = true) :=
  ⟨⟨by decide,
      (C7_retransmit_policy ⟨0, 2, [1, 2, 3], true, false, none⟩).1
        (by decide)⟩,
    (C7_retransmit_policy ⟨0, 2, [1, 2, 3], true, false, none⟩).2.2 rfl⟩

end Tftp
